import Mathlib

/-!
# ShaderPlugin: screenshot read-back, module state machine and compute dispatch

A shallow embedding of `ShaderPluginModule.cpp` and of the dispatch call of
`ComputeShaderExample.cpp`.

Conventions of the embedding.

* `uint32`, `uint8` and `int32` values are natural numbers or integers; a
  narrowing or wrapping conversion of the source is an explicit `%`.
* The region returned by `LockTexture2D` is a list of bytes. A read through a
  pointer is bounds checked: a read outside the region (undefined behaviour in
  the source) is the fault `outOfBounds`.
* `TArray<FColor>` is a list, `Add` appends at the end and `Num()` is the
  length. `Num()` is an `int32`; the unsigned 32-bit division of line 179
  reduces it modulo `2 ^ 32`.
* Calls into the engine that the functions make for their effect are recorded,
  in order, in a list of `Effect`s.
-/

namespace ShaderPlugin

/-! ## Data model -/

/-- An `FColor` as built by the constructor call `FColor(r, g, b, a)`. -/
structure FColor where
  R : Nat
  G : Nat
  B : Nat
  A : Nat
deriving DecidableEq, Repr, Inhabited

/-- Every channel of the colour fits the `uint8` it is stored in. -/
def FColor.InRange (c : FColor) : Prop :=
  c.R < 256 ∧ c.G < 256 ∧ c.B < 256 ∧ c.A < 256

instance (c : FColor) : Decidable c.InRange := by
  unfold FColor.InRange; infer_instance

/-- The conversion of an unsigned value to `uint8`. -/
def toUInt8 (n : Nat) : Nat := n % 256

/-- Ways in which the embedded code can fail to return. -/
inductive Fault where
  | outOfBounds
  | divideByZero
  | checkFailed
deriving DecidableEq, Repr

/-- The size queries of an `FRHITexture2D`, both `uint32`. -/
structure FRHITexture2D where
  SizeX : Nat
  SizeY : Nat
deriving DecidableEq, Repr

/-- Log verbosity of `UE_LOG`. -/
inductive Verbosity where
  | Display
  | Error
deriving DecidableEq, Repr

/-- The two messages the screenshot functions log. -/
inductive LogMessage where
  | contentWasSavedTo (dir : String)
  | failedToSaveBMP
deriving DecidableEq, Repr

/-- Engine calls made for their effect, as recorded by the embedding. -/
inductive Effect where
  | lockTexture2D
  | unlockTexture2D
  | readSurfaceData (minX minY maxX maxY : Nat)
  | makeDirectory (dir : String)
  | createBitmap (dir : String) (file : String) (DataWidth DataHeight : Nat)
      (Data : List FColor)
  | log (v : Verbosity) (m : LogMessage)
deriving DecidableEq, Repr

/-! ## Pixel unpacking (`ShaderPluginModule.cpp`, lines 157-162) -/

/-- Lines 158-162: the four mask-then-shift extractions, each narrowed to
`uint8`, and the `FColor` built from them. -/
def unpackPixel (EncodedPixel : Nat) : FColor :=
  let r := toUInt8 (EncodedPixel &&& 0x000000FF)
  let g := toUInt8 ((EncodedPixel &&& 0x0000FF00) >>> 8)
  let b := toUInt8 ((EncodedPixel &&& 0x00FF0000) >>> 16)
  let a := toUInt8 ((EncodedPixel &&& 0xFF000000) >>> 24)
  FColor.mk r g b a

/-! ## Reading the locked texture -/

/-- The byte at offset `i` of the locked region. -/
def byteAt (TextureData : List Nat) (i : Nat) : Nat :=
  TextureData.getD i 0 % 256

/-- The little-endian 32-bit word whose first byte is at offset `p`. -/
def word32 (TextureData : List Nat) (p : Nat) : Nat :=
  byteAt TextureData p + byteAt TextureData (p + 1) * 2 ^ 8
    + byteAt TextureData (p + 2) * 2 ^ 16 + byteAt TextureData (p + 3) * 2 ^ 24

/-- Line 157, `*PixelPtr` for a `uint32*`: four bytes are read, all of which
have to lie inside the locked region. -/
def readUInt32 (TextureData : List Nat) (PixelPtr : Nat) : Except Fault Nat :=
  if PixelPtr + 4 ≤ TextureData.length then
    .ok (word32 TextureData PixelPtr)
  else
    .error Fault.outOfBounds

/-- The inner loop, lines 155-165, with `cols` iterations left: read the word
at `PixelPtr`, append its colour to `Bitmap`, advance `PixelPtr` by one
`uint32`. -/
def decodeRow (TextureData : List Nat) :
    (cols : Nat) → (PixelPtr : Nat) → (Bitmap : List FColor) → Except Fault (List FColor)
  | 0, _, Bitmap => .ok Bitmap
  | cols + 1, PixelPtr, Bitmap =>
    match readUInt32 TextureData PixelPtr with
    | .error e => .error e
    | .ok EncodedPixel =>
      decodeRow TextureData cols (PixelPtr + 4) (Bitmap ++ [unpackPixel EncodedPixel])

/-- The outer loop, lines 150-168, with `rows` iterations left: decode `SizeX`
pixels starting at `TextureDataPtr`, then advance `TextureDataPtr` by
`LolStride` bytes. -/
def decodeRows (TextureData : List Nat) (SizeX LolStride : Nat) :
    (rows : Nat) → (TextureDataPtr : Nat) → (Bitmap : List FColor) → Except Fault (List FColor)
  | 0, _, Bitmap => .ok Bitmap
  | rows + 1, TextureDataPtr, Bitmap =>
    match decodeRow TextureData SizeX TextureDataPtr Bitmap with
    | .error e => .error e
    | .ok Bitmap1 =>
      decodeRows TextureData SizeX LolStride rows (TextureDataPtr + LolStride) Bitmap1

/-- Lines 144-168: the decode of `SaveCSScreenshot_RenderThread`, from the empty
`Bitmap` and the start of the locked region. -/
def decode (Texture : FRHITexture2D) (LolStride : Nat) (TextureData : List Nat) :
    Except Fault (List FColor) :=
  decodeRows TextureData Texture.SizeX LolStride Texture.SizeY 0 []

/-! ## The screenshot functions -/

/-- Lines 142-190. `LolStride` and `TextureData` are what `LockTexture2D`
returned, `ScreenShotDir` is the value of `FPaths::ScreenShotDir()`. -/
def SaveCSScreenshot_RenderThread (ScreenShotDir : String) (Texture : FRHITexture2D)
    (LolStride : Nat) (TextureData : List Nat) : Except Fault (List Effect) :=
  match decode Texture LolStride TextureData with
  | .error e => .error e
  | .ok Bitmap =>
    if Bitmap.length ≠ 0 then
      if Texture.SizeY = 0 then
        .error Fault.divideByZero
      else
        let ExtendXWithMSAA := (Bitmap.length % 2 ^ 32) / Texture.SizeY
        .ok [Effect.lockTexture2D, Effect.unlockTexture2D,
          Effect.makeDirectory ScreenShotDir,
          Effect.createBitmap ScreenShotDir "VisualizeTexture" ExtendXWithMSAA
            Texture.SizeY Bitmap,
          Effect.log Verbosity.Display (LogMessage.contentWasSavedTo ScreenShotDir)]
    else
      .ok [Effect.lockTexture2D, Effect.unlockTexture2D,
        Effect.log Verbosity.Error LogMessage.failedToSaveBMP]

/-- Lines 192-225. `IsInRenderingThread` is the value the `check` of line 194
tests (its only caller, `Draw_RenderThread`, has passed the same `check` at
line 116), `SurfaceData` is what `ReadSurfaceData` stored into `Bitmap`. -/
def SavePSScreenShot_RenderThread (ScreenShotDir : String) (IsInRenderingThread : Bool)
    (CurrentTexture : FRHITexture2D) (SurfaceData : List FColor) :
    Except Fault (List Effect) :=
  if IsInRenderingThread = false then
    .error Fault.checkFailed
  else
    let Bitmap := SurfaceData
    if Bitmap.length ≠ 0 then
      if CurrentTexture.SizeY = 0 then
        .error Fault.divideByZero
      else
        let ExtendXWithMSAA := (Bitmap.length % 2 ^ 32) / CurrentTexture.SizeY
        .ok [Effect.readSurfaceData 0 0 CurrentTexture.SizeX CurrentTexture.SizeY,
          Effect.makeDirectory ScreenShotDir,
          Effect.createBitmap ScreenShotDir "VisualizeTexture" ExtendXWithMSAA
            CurrentTexture.SizeY Bitmap,
          Effect.log Verbosity.Display (LogMessage.contentWasSavedTo ScreenShotDir)]
    else
      .ok [Effect.readSurfaceData 0 0 CurrentTexture.SizeX CurrentTexture.SizeY,
        Effect.log Verbosity.Error LogMessage.failedToSaveBMP]

/-! ## Reading the recorded effects -/

/-- The effect is a call of the bitmap writer, `FFileHelper::CreateBitmap`. -/
def isCreateBitmap : Effect → Bool
  | Effect.createBitmap _ _ _ _ _ => true
  | _ => false

/-- The effect is a `UE_LOG` of verbosity `v`. -/
def isLog (v : Verbosity) : Effect → Bool
  | Effect.log v1 _ => decide (v1 = v)
  | _ => false

/-! ## Packing, as the round-trip property words it -/

/-- The packed 32-bit word of a colour, `r | g<<8 | b<<16 | a<<24`. This
definition follows the wording of the specification, not the source: the
packing is done by the compute shader. -/
def encodePixel (c : FColor) : Nat :=
  c.R ||| (c.G <<< 8) ||| (c.B <<< 16) ||| (c.A <<< 24)

/-- Byte `k` (0 is the least significant) of a word stored little-endian. -/
def wordByte (w k : Nat) : Nat := (w >>> (8 * k)) % 256

/-- The read-back buffer of an image, as the round-trip property words it:
`height` rows laid out `stride` bytes apart, the first `width * 4` bytes of a
row holding its packed pixels and every other byte taken from `padding`. -/
def encodeImage (pixels : List FColor) (width height stride : Nat)
    (padding : Nat → Nat) : List Nat :=
  (List.range (height * stride)).map fun off =>
    if off % stride < width * 4 then
      wordByte (encodePixel (pixels.getD (off / stride * width + off % stride / 4) default))
        (off % stride % 4)
    else
      padding off

/-! ## The module state machine (`ShaderPluginModule.cpp`, lines 42-112) -/

/-- The members of `FShaderPluginModule` that lines 42-112 use. The handle is
`none` when `IsValid()` is false. `P` is `FShaderUsageExampleParameters`. -/
structure FShaderPluginModule (P : Type) where
  OnPostResolvedSceneColorHandle : Option Nat
  bCachedParametersValid : Bool
  CachedShaderUsageExampleParameters : P

/-- The module together with the part of the renderer it talks to: the handles
currently bound in `GetResolvedSceneColorCallbacks()` and the next handle
`AddRaw` hands out. -/
structure World (P : Type) where
  Module : FShaderPluginModule P
  Callbacks : List Nat
  NextHandle : Nat

/-- What a call does that is visible outside the module. -/
inductive Observed (P : Type) where
  | nothing
  | addRaw (handle : Nat)
  | remove (handle : Nat)
  | Draw_RenderThread (Copy : P)
deriving DecidableEq, Repr

/-- Lines 42-50. The shader source directory mapping of lines 47-49 touches
none of the members and is left out. -/
def StartupModule {P : Type} (w : World P) : World P × Observed P :=
  ({ w with Module := { w.Module with
      OnPostResolvedSceneColorHandle := none
      bCachedParametersValid := false } }, Observed.nothing)

/-- Lines 57-72. `RendererModule` tells whether `GetModulePtr` returned a
module. -/
def BeginRendering {P : Type} (RendererModule : Bool) (w : World P) :
    World P × Observed P :=
  if w.Module.OnPostResolvedSceneColorHandle.isSome then
    (w, Observed.nothing)
  else
    let m := { w.Module with bCachedParametersValid := false }
    if RendererModule then
      ({ Module := { m with OnPostResolvedSceneColorHandle := some w.NextHandle }
         Callbacks := w.Callbacks ++ [w.NextHandle]
         NextHandle := w.NextHandle + 1 }, Observed.addRaw w.NextHandle)
    else
      ({ w with Module := m }, Observed.nothing)

/-- Lines 74-89. -/
def EndRendering {P : Type} (RendererModule : Bool) (w : World P) :
    World P × Observed P :=
  match w.Module.OnPostResolvedSceneColorHandle with
  | none => (w, Observed.nothing)
  | some h =>
    let m := { w.Module with OnPostResolvedSceneColorHandle := none }
    if RendererModule then
      ({ w with Module := m, Callbacks := w.Callbacks.erase h }, Observed.remove h)
    else
      ({ w with Module := m }, Observed.nothing)

/-- Lines 52-55. -/
def ShutdownModule {P : Type} (RendererModule : Bool) (w : World P) :
    World P × Observed P :=
  EndRendering RendererModule w

/-- Lines 91-97. -/
def UpdateParameters {P : Type} (DrawParameters : P) (w : World P) :
    World P × Observed P :=
  ({ w with Module := { w.Module with
      CachedShaderUsageExampleParameters := DrawParameters
      bCachedParametersValid := true } }, Observed.nothing)

/-- Lines 99-112. -/
def DrawEveryFrame_RenderThread {P : Type} (w : World P) : World P × Observed P :=
  if w.Module.bCachedParametersValid = false then
    (w, Observed.nothing)
  else
    let Copy := w.Module.CachedShaderUsageExampleParameters
    (w, Observed.Draw_RenderThread Copy)

/-- The calls made on the module, in the order they are made. -/
inductive Call (P : Type) where
  | StartupModule
  | ShutdownModule (RendererModule : Bool)
  | BeginRendering (RendererModule : Bool)
  | EndRendering (RendererModule : Bool)
  | UpdateParameters (DrawParameters : P)
  | DrawEveryFrame_RenderThread
deriving DecidableEq, Repr

/-- One call. -/
def step {P : Type} (w : World P) : Call P → World P × Observed P
  | Call.StartupModule => StartupModule w
  | Call.ShutdownModule r => ShutdownModule r w
  | Call.BeginRendering r => BeginRendering r w
  | Call.EndRendering r => EndRendering r w
  | Call.UpdateParameters p => UpdateParameters p w
  | Call.DrawEveryFrame_RenderThread => DrawEveryFrame_RenderThread w

/-- The calls of a sequence, each paired with what it was observed to do. -/
def trace {P : Type} (w : World P) : List (Call P) → List (Call P × Observed P)
  | [] => []
  | c :: cs => (c, (step w c).2) :: trace (step w c).1 cs

/-- The renderer broadcasts to `DrawEveryFrame_RenderThread` only while a
binding of it is in the delegate; every other call can be made at any time. -/
def Enabled {P : Type} (w : World P) : Call P → Bool
  | Call.DrawEveryFrame_RenderThread => !w.Callbacks.isEmpty
  | _ => true

/-- Every call of the sequence is enabled when it is made. -/
def Feasible {P : Type} (w : World P) : List (Call P) → Bool
  | [] => true
  | c :: cs => Enabled w c && Feasible (step w c).1 cs

/-- The call is an `UpdateParameters`. -/
def isUpdate {P : Type} : Call P → Bool
  | Call.UpdateParameters _ => true
  | _ => false

/-- The call bound the callback. -/
def isAddRaw {P : Type} : Observed P → Bool
  | Observed.addRaw _ => true
  | _ => false

/-- Neither an `UpdateParameters` call nor a binding of the callback. -/
def Quiet {P : Type} (x : Call P × Observed P) : Bool :=
  !isUpdate x.1 && !isAddRaw x.2

/-! ## The compute dispatch (`ComputeShaderExample.cpp`, lines 102-118) -/

/-- Line 37. -/
def NUM_THREADS_PER_GROUP_DIMENSION : Int := 32

/-- The value an `int32` holds after a sum that may leave its range wraps. -/
def wrapInt32 (x : Int) : Int := (x + 2 ^ 31) % 2 ^ 32 - 2 ^ 31

/-- The conversion of an `int32` to the `uint32` parameter it is passed for. -/
def toUInt32 (x : Int) : Nat := (x % 2 ^ 32).toNat

/-- Modelled from the spec: `FMath::DivideAndRoundUp` is an engine helper
whose body is not among the source files. The claim gives its value at divisor
32 as `(X + 31) / 32` under integer division, that is
`(Dividend + Divisor - 1) / Divisor`, here in `int32` arithmetic. -/
def DivideAndRoundUp (Dividend Divisor : Int) : Int :=
  Int.tdiv (wrapInt32 (Dividend + Divisor - 1)) Divisor

/-- Lines 104 and 114-116: the three thread-group counts handed to
`DispatchComputeShader`, from the `int32` extent of the render target. -/
def RunComputeShader_RenderThread (SizeX SizeY : Int) : Nat × Nat × Nat :=
  let TextureExtent : Int × Int := (SizeX, SizeY)
  (toUInt32 (DivideAndRoundUp TextureExtent.1 NUM_THREADS_PER_GROUP_DIMENSION),
   toUInt32 (DivideAndRoundUp TextureExtent.2 NUM_THREADS_PER_GROUP_DIMENSION),
   1)

/-! ## The decoded image in closed form -/

/-- The colours of the `SizeX` words that start at byte offset `p`. -/
def rowPixels (TextureData : List Nat) (SizeX p : Nat) : List FColor :=
  (List.range SizeX).map fun c => unpackPixel (word32 TextureData (p + 4 * c))

/-- The colours of `rows` rows of `SizeX` words, the rows starting at byte
offsets `p`, `p + LolStride`, `p + 2 * LolStride`, and so on. -/
def imagePixels (TextureData : List Nat) (SizeX LolStride rows p : Nat) : List FColor :=
  (List.range rows).flatMap fun r => rowPixels TextureData SizeX (p + r * LolStride)

/-! ## Lemmas on masks and shifts -/

theorem and_shiftLeft_mask_shiftRight (p k : Nat) :
    (p &&& (0xFF <<< k)) >>> k = (p >>> k) &&& 0xFF := by
  apply Nat.eq_of_testBit_eq
  intro i
  simp only [Nat.testBit_shiftRight, Nat.testBit_and, Nat.testBit_shiftLeft]
  simp

theorem shiftRight_and_mask (p k : Nat) : (p >>> k) &&& 0xFF = p / 2 ^ k % 256 := by
  have h := Nat.and_pow_two_sub_one_eq_mod (p >>> k) 8
  simp only [Nat.shiftRight_eq_div_pow] at h ⊢
  simpa using h

theorem red_mask (p : Nat) : p &&& 0x000000FF = p % 256 := by
  simpa using shiftRight_and_mask p 0

theorem green_mask (p : Nat) : (p &&& 0x0000FF00) >>> 8 = p / 2 ^ 8 % 256 := by
  have h : (0x0000FF00 : Nat) = 0xFF <<< 8 := by decide
  rw [h, and_shiftLeft_mask_shiftRight, shiftRight_and_mask]

theorem blue_mask (p : Nat) : (p &&& 0x00FF0000) >>> 16 = p / 2 ^ 16 % 256 := by
  have h : (0x00FF0000 : Nat) = 0xFF <<< 16 := by decide
  rw [h, and_shiftLeft_mask_shiftRight, shiftRight_and_mask]

theorem alpha_mask (p : Nat) : (p &&& 0xFF000000) >>> 24 = p / 2 ^ 24 % 256 := by
  have h : (0xFF000000 : Nat) = 0xFF <<< 24 := by decide
  rw [h, and_shiftLeft_mask_shiftRight, shiftRight_and_mask]

/-- The colour of a word, in terms of division and remainder. -/
theorem unpackPixel_eq_div_mod (p : Nat) :
    unpackPixel p = FColor.mk (p % 256) (p / 2 ^ 8 % 256) (p / 2 ^ 16 % 256)
      (p / 2 ^ 24 % 256) := by
  simp only [unpackPixel, toUInt8, red_mask, green_mask, blue_mask, alpha_mask,
    Nat.mod_mod]

/-! ## C2: channel unpacking -/

/-- C2: for every 32-bit unsigned packed pixel `p` the mask-then-shift
extraction of lines 158-161 yields red `p & 0xFF`, green `(p >> 8) & 0xFF`, blue
`(p >> 16) & 0xFF` and alpha `(p >> 24) & 0xFF`; each value is below 256 before
it is narrowed to `uint8`, so the narrowing loses nothing; the four channels
are the bytes of `p`, least significant first; and `0xFF00FF00` unpacks to
`(0, 255, 0, 255)`. -/
theorem unpackPixel_channels (p : Nat) (hp : p < 2 ^ 32) :
    unpackPixel p
        = FColor.mk (p &&& 0xFF) ((p >>> 8) &&& 0xFF) ((p >>> 16) &&& 0xFF)
            ((p >>> 24) &&& 0xFF)
      ∧ (p &&& 0x000000FF) < 256
      ∧ (p &&& 0x0000FF00) >>> 8 < 256
      ∧ (p &&& 0x00FF0000) >>> 16 < 256
      ∧ (p &&& 0xFF000000) >>> 24 < 256
      ∧ (unpackPixel p).InRange
      ∧ p = (unpackPixel p).R + (unpackPixel p).G * 2 ^ 8 + (unpackPixel p).B * 2 ^ 16
            + (unpackPixel p).A * 2 ^ 24
      ∧ unpackPixel 0xFF00FF00 = FColor.mk 0 255 0 255 := by
  refine ⟨?_, ?_, ?_, ?_, ?_, ?_, ?_, ?_⟩
  · rw [unpackPixel_eq_div_mod, shiftRight_and_mask, shiftRight_and_mask,
      shiftRight_and_mask]
    have h := shiftRight_and_mask p 0
    simp only [Nat.shiftRight_zero, pow_zero, Nat.div_one] at h
    rw [h]
  · rw [red_mask]; omega
  · rw [green_mask]; omega
  · rw [blue_mask]; omega
  · rw [alpha_mask]; omega
  · rw [unpackPixel_eq_div_mod]
    simp only [FColor.InRange]
    omega
  · rw [unpackPixel_eq_div_mod]
    simp only
    omega
  · decide

/-- C2 at the packed pixel `0xFF00FF00`. -/
theorem unpackPixel_channels_witness :
    (0xFF00FF00 : Nat) < 2 ^ 32
      ∧ unpackPixel 0xFF00FF00
          = FColor.mk (0xFF00FF00 &&& 0xFF) ((0xFF00FF00 >>> 8) &&& 0xFF)
              ((0xFF00FF00 >>> 16) &&& 0xFF) ((0xFF00FF00 >>> 24) &&& 0xFF)
      ∧ unpackPixel 0xFF00FF00 = FColor.mk 0 255 0 255 :=
  ⟨by decide, (unpackPixel_channels 0xFF00FF00 (by decide)).1,
    (unpackPixel_channels 0xFF00FF00 (by decide)).2.2.2.2.2.2.2⟩

/-! ## The decode loops in closed form -/

theorem readUInt32_ok (data : List Nat) (p : Nat) (h : p + 4 ≤ data.length) :
    readUInt32 data p = .ok (word32 data p) := by
  simp [readUInt32, h]

theorem rowPixels_succ (data : List Nat) (n p : Nat) :
    rowPixels data (n + 1) p = unpackPixel (word32 data p) :: rowPixels data n (p + 4) := by
  simp only [rowPixels, List.range_succ_eq_map, List.map_cons, List.map_map]
  congr 1
  apply List.map_congr_left
  intro c _
  simp only [Function.comp, Nat.succ_eq_add_one]
  congr 2
  ring

theorem decodeRow_ok (data : List Nat) :
    ∀ (n p : Nat) (acc : List FColor), (n ≠ 0 → p + 4 * n ≤ data.length) →
      decodeRow data n p acc = .ok (acc ++ rowPixels data n p)
  | 0, p, acc, _ => by simp [decodeRow, rowPixels]
  | n + 1, p, acc, h => by
    have hlen : p + 4 * (n + 1) ≤ data.length := h (Nat.succ_ne_zero n)
    have hread : readUInt32 data p = .ok (word32 data p) :=
      readUInt32_ok data p (by omega)
    have ih := decodeRow_ok data n (p + 4) (acc ++ [unpackPixel (word32 data p)])
      (fun _ => by omega)
    simp only [decodeRow, hread, ih, rowPixels_succ, List.append_assoc,
      List.singleton_append]

theorem imagePixels_succ (data : List Nat) (w s m p : Nat) :
    imagePixels data w s (m + 1) p
      = rowPixels data w p ++ imagePixels data w s m (p + s) := by
  simp only [imagePixels, List.range_succ_eq_map, List.flatMap_cons, List.flatMap_map,
    Nat.zero_mul, Nat.add_zero]
  congr 1
  apply List.flatMap_congr
  intro r _
  simp only [Nat.succ_eq_add_one]
  congr 1
  ring

theorem decodeRows_ok (data : List Nat) (w s : Nat) :
    ∀ (m p : Nat) (acc : List FColor),
      (∀ r, r < m → w ≠ 0 → p + r * s + 4 * w ≤ data.length) →
      decodeRows data w s m p acc = .ok (acc ++ imagePixels data w s m p)
  | 0, p, acc, _ => by simp [decodeRows, imagePixels]
  | m + 1, p, acc, h => by
    have hrow := decodeRow_ok data w p acc (fun hw => by
      have := h 0 (Nat.succ_pos m) hw
      omega)
    have ih := decodeRows_ok data w s m (p + s) (acc ++ rowPixels data w p)
      (fun r hr hw => by
        have := h (r + 1) (by omega) hw
        rw [Nat.succ_mul] at this
        omega)
    simp only [decodeRows, hrow, ih, imagePixels_succ, List.append_assoc]

theorem rowPixels_length (data : List Nat) (w p : Nat) :
    (rowPixels data w p).length = w := by
  simp [rowPixels]

theorem imagePixels_length (data : List Nat) (w s : Nat) :
    ∀ (m p : Nat), (imagePixels data w s m p).length = w * m
  | 0, p => by simp [imagePixels]
  | m + 1, p => by
    rw [imagePixels_succ, List.length_append, rowPixels_length,
      imagePixels_length data w s m (p + s)]
    ring

theorem rowPixels_getElem? (data : List Nat) (w p c : Nat) (hc : c < w) :
    (rowPixels data w p)[c]? = some (unpackPixel (word32 data (p + 4 * c))) := by
  simp [rowPixels, List.getElem?_map, List.getElem?_range hc]

theorem imagePixels_getElem? (data : List Nat) (w s : Nat) :
    ∀ (m p r c : Nat), r < m → c < w →
      (imagePixels data w s m p)[r * w + c]?
        = some (unpackPixel (word32 data (p + r * s + 4 * c)))
  | 0, _, _, _, hr, _ => absurd hr (Nat.not_lt_zero _)
  | m + 1, p, 0, c, _, hc => by
    rw [imagePixels_succ, Nat.zero_mul, Nat.zero_add,
      List.getElem?_append_left (by rw [rowPixels_length]; exact hc),
      rowPixels_getElem? data w p c hc]
    simp
  | m + 1, p, r + 1, c, hr, hc => by
    have hw : (r + 1) * w = r * w + w := Nat.succ_mul r w
    have hs : (r + 1) * s = r * s + s := Nat.succ_mul r s
    rw [imagePixels_succ,
      List.getElem?_append_right (by rw [rowPixels_length]; omega),
      rowPixels_length]
    have hidx : (r + 1) * w + c - w = r * w + c := by omega
    rw [hidx, imagePixels_getElem? data w s m (p + s) r c (by omega) hc]
    congr 3
    omega

/-! ## Buffers that agree on the decoded bytes -/

theorem rows_in_bounds (w h s len : Nat)
    (hbuf : ((h : Int) - 1) * s + w * 4 ≤ len) :
    ∀ r, r < h → w ≠ 0 → 0 + r * s + 4 * w ≤ len := by
  intro r hr _
  have h1 : (r : Int) ≤ (h : Int) - 1 := by omega
  have h2 : (r : Int) * s ≤ ((h : Int) - 1) * s :=
    mul_le_mul_of_nonneg_right h1 (Int.ofNat_nonneg s)
  have h3 : ((0 + r * s + 4 * w : Nat) : Int) ≤ (len : Int) := by
    push_cast
    linarith
  exact_mod_cast h3

theorem decode_eq_imagePixels (Texture : FRHITexture2D) (LolStride : Nat)
    (TextureData : List Nat)
    (hbuf : ((Texture.SizeY : Int) - 1) * LolStride + Texture.SizeX * 4
      ≤ TextureData.length) :
    decode Texture LolStride TextureData
      = .ok (imagePixels TextureData Texture.SizeX LolStride Texture.SizeY 0) := by
  have h := decodeRows_ok TextureData Texture.SizeX LolStride Texture.SizeY 0 []
    (rows_in_bounds _ _ _ _ hbuf)
  simpa [decode] using h

theorem word32_congr (d1 d2 : List Nat) (p1 p2 : Nat)
    (h : ∀ k, k < 4 → byteAt d1 (p1 + k) = byteAt d2 (p2 + k)) :
    word32 d1 p1 = word32 d2 p2 := by
  have h0 := h 0 (by decide)
  have h1 := h 1 (by decide)
  have h2 := h 2 (by decide)
  have h3 := h 3 (by decide)
  simp only [Nat.add_zero] at h0
  simp only [word32, h0, h1, h2, h3]

theorem imagePixels_congr (d1 d2 : List Nat) (w s1 s2 m : Nat)
    (h : ∀ r, r < m → ∀ j, j < w * 4 → byteAt d1 (r * s1 + j) = byteAt d2 (r * s2 + j)) :
    imagePixels d1 w s1 m 0 = imagePixels d2 w s2 m 0 := by
  simp only [imagePixels, rowPixels, Nat.zero_add]
  apply List.flatMap_congr
  intro r hr
  apply List.map_congr_left
  intro c hc
  rw [List.mem_range] at hr hc
  congr 1
  apply word32_congr
  intro k hk
  have := h r hr (4 * c + k) (by omega)
  simpa [Nat.add_assoc] using this

theorem byteAt_set_ne (data : List Nat) (i k v : Nat) (h : i ≠ k) :
    byteAt (data.set i v) k = byteAt data k := by
  simp only [byteAt, List.getD_eq_getElem?_getD, List.getElem?_set_ne h]

theorem padding_offset_ne (s w r r1 j x : Nat) (hx : x < w * 4) (hj : w * 4 ≤ j)
    (hjs : j < s) : r * s + j ≠ r1 * s + x := by
  intro heq
  rcases Nat.lt_trichotomy r r1 with hlt | heq1 | hgt
  · have h1 : (r + 1) * s ≤ r1 * s := Nat.mul_le_mul_right s hlt
    rw [Nat.succ_mul] at h1
    omega
  · subst heq1
    omega
  · have h1 : (r1 + 1) * s ≤ r * s := Nat.mul_le_mul_right s hgt
    rw [Nat.succ_mul] at h1
    omega

/-! ## C1: stride-respecting row-major decode -/

/-- C1: for every width, height and stride with `stride >= width * 4` and
every read-back buffer of at least `(height - 1) * stride + width * 4` bytes,
the decode loop of `SaveCSScreenshot_RenderThread` returns a pixel sequence
that holds, at index `r * width + c` for every `r < height` and `c < width`,
the unpacking of the little-endian word at byte offset `r * stride + c * 4`;
a byte of a row past its first `width * 4` bytes is never decoded, since
overwriting it leaves the result unchanged; and the 2x1 image with stride 8
holding `[0x000000FF, 0xFFFFFFFF]` decodes to
`[(255,0,0,0), (255,255,255,255)]`. -/
theorem decode_row_major (Texture : FRHITexture2D) (LolStride : Nat)
    (TextureData : List Nat)
    (_hstride : Texture.SizeX * 4 ≤ LolStride)
    (hbuf : ((Texture.SizeY : Int) - 1) * LolStride + Texture.SizeX * 4
      ≤ TextureData.length) :
    (∃ Bitmap, decode Texture LolStride TextureData = .ok Bitmap
      ∧ (∀ r c, r < Texture.SizeY → c < Texture.SizeX →
          Bitmap[r * Texture.SizeX + c]?
            = some (unpackPixel (word32 TextureData (r * LolStride + c * 4))))
      ∧ (∀ r j v, r < Texture.SizeY → Texture.SizeX * 4 ≤ j → j < LolStride →
          decode Texture LolStride (TextureData.set (r * LolStride + j) v) = .ok Bitmap))
    ∧ decode (FRHITexture2D.mk 2 1) 8 [0xFF, 0, 0, 0, 0xFF, 0xFF, 0xFF, 0xFF]
        = .ok [FColor.mk 255 0 0 0, FColor.mk 255 255 255 255] := by
  refine ⟨⟨_, decode_eq_imagePixels Texture LolStride TextureData hbuf, ?_, ?_⟩, ?_⟩
  · intro r c hr hc
    rw [imagePixels_getElem? TextureData Texture.SizeX LolStride Texture.SizeY 0 r c hr hc]
    congr 3
    omega
  · intro r j v _ hj hjs
    rw [decode_eq_imagePixels Texture LolStride _ (by rw [List.length_set]; exact hbuf)]
    congr 1
    apply imagePixels_congr
    intro r1 _ x hx
    exact byteAt_set_ne TextureData _ _ v
      (padding_offset_ne LolStride Texture.SizeX r r1 j x hx hj hjs)
  · rfl

/-- C1 at the 2x1 image with stride 8 holding `[0x000000FF, 0xFFFFFFFF]`. -/
theorem decode_row_major_witness :
    (FRHITexture2D.mk 2 1).SizeX * 4 ≤ 8
    ∧ (((FRHITexture2D.mk 2 1).SizeY : Int) - 1) * (8 : Nat)
        + (FRHITexture2D.mk 2 1).SizeX * 4
        ≤ ([0xFF, 0, 0, 0, 0xFF, 0xFF, 0xFF, 0xFF] : List Nat).length
    ∧ ((∃ Bitmap, decode (FRHITexture2D.mk 2 1) 8 [0xFF, 0, 0, 0, 0xFF, 0xFF, 0xFF, 0xFF]
          = .ok Bitmap
        ∧ (∀ r c, r < (FRHITexture2D.mk 2 1).SizeY → c < (FRHITexture2D.mk 2 1).SizeX →
            Bitmap[r * (FRHITexture2D.mk 2 1).SizeX + c]?
              = some (unpackPixel
                  (word32 [0xFF, 0, 0, 0, 0xFF, 0xFF, 0xFF, 0xFF] (r * 8 + c * 4))))
        ∧ (∀ r j v, r < (FRHITexture2D.mk 2 1).SizeY →
            (FRHITexture2D.mk 2 1).SizeX * 4 ≤ j → j < 8 →
            decode (FRHITexture2D.mk 2 1) 8
              (([0xFF, 0, 0, 0, 0xFF, 0xFF, 0xFF, 0xFF] : List Nat).set (r * 8 + j) v)
              = .ok Bitmap))
      ∧ decode (FRHITexture2D.mk 2 1) 8 [0xFF, 0, 0, 0, 0xFF, 0xFF, 0xFF, 0xFF]
          = .ok [FColor.mk 255 0 0 0, FColor.mk 255 255 255 255]) :=
  ⟨by decide, by decide,
    decode_row_major (FRHITexture2D.mk 2 1) 8 [0xFF, 0, 0, 0, 0xFF, 0xFF, 0xFF, 0xFF]
      (by decide) (by decide)⟩

/-! ## C3: output size -/

/-- C3: for all width, height and stride with `stride >= width * 4`, and a
read-back buffer that holds the `height` rows, the decode loop of
`SaveCSScreenshot_RenderThread` returns and has appended exactly
`width * height` pixels to the initially empty `Bitmap`. -/
theorem decode_length (Texture : FRHITexture2D) (LolStride : Nat)
    (TextureData : List Nat)
    (_hstride : Texture.SizeX * 4 ≤ LolStride)
    (hbuf : ((Texture.SizeY : Int) - 1) * LolStride + Texture.SizeX * 4
      ≤ TextureData.length) :
    ∃ Bitmap, decode Texture LolStride TextureData = .ok Bitmap
      ∧ Bitmap.length = Texture.SizeX * Texture.SizeY :=
  ⟨_, decode_eq_imagePixels Texture LolStride TextureData hbuf,
    imagePixels_length TextureData Texture.SizeX LolStride Texture.SizeY 0⟩

/-- C3 at a 2x3 image with stride 12, four bytes of padding in every row. -/
theorem decode_length_witness :
    (FRHITexture2D.mk 2 3).SizeX * 4 ≤ 12
    ∧ (((FRHITexture2D.mk 2 3).SizeY : Int) - 1) * (12 : Nat)
        + (FRHITexture2D.mk 2 3).SizeX * 4
        ≤ (List.replicate 36 7 : List Nat).length
    ∧ ∃ Bitmap, decode (FRHITexture2D.mk 2 3) 12 (List.replicate 36 7) = .ok Bitmap
        ∧ Bitmap.length = (FRHITexture2D.mk 2 3).SizeX * (FRHITexture2D.mk 2 3).SizeY :=
  ⟨by decide, by decide,
    decode_length (FRHITexture2D.mk 2 3) 12 (List.replicate 36 7) (by decide) (by decide)⟩

/-! ## C5: stride independence -/

/-- C5: for every width and height and any two read-back buffers, with strides
`s1 >= width * 4` and `s2 >= width * 4`, that hold the `height` rows and agree
on the first `width * 4` bytes of every row, the decode of
`SaveCSScreenshot_RenderThread` returns the same pixel sequence for both,
whatever the strides and the padding bytes are. -/
theorem decode_stride_independent (Texture : FRHITexture2D) (s1 s2 : Nat)
    (buf1 buf2 : List Nat)
    (_hs1 : Texture.SizeX * 4 ≤ s1) (_hs2 : Texture.SizeX * 4 ≤ s2)
    (hbuf1 : ((Texture.SizeY : Int) - 1) * s1 + Texture.SizeX * 4 ≤ buf1.length)
    (hbuf2 : ((Texture.SizeY : Int) - 1) * s2 + Texture.SizeX * 4 ≤ buf2.length)
    (hagree : ∀ r, r < Texture.SizeY → ∀ j, j < Texture.SizeX * 4 →
      byteAt buf1 (r * s1 + j) = byteAt buf2 (r * s2 + j)) :
    ∃ Bitmap, decode Texture s1 buf1 = .ok Bitmap ∧ decode Texture s2 buf2 = .ok Bitmap := by
  refine ⟨_, decode_eq_imagePixels Texture s1 buf1 hbuf1, ?_⟩
  rw [decode_eq_imagePixels Texture s2 buf2 hbuf2]
  congr 1
  exact (imagePixels_congr buf1 buf2 Texture.SizeX s1 s2 Texture.SizeY hagree).symm

/-- C5 at a 1x2 image, once with stride `width * 4` and once with stride
`width * 4 + 16`, the padding filled with the byte 9. -/
theorem decode_stride_independent_witness :
    (FRHITexture2D.mk 1 2).SizeX * 4 ≤ 4
    ∧ (FRHITexture2D.mk 1 2).SizeX * 4 ≤ 20
    ∧ (∀ r, r < (FRHITexture2D.mk 1 2).SizeY → ∀ j, j < (FRHITexture2D.mk 1 2).SizeX * 4 →
        byteAt [1, 2, 3, 4, 5, 6, 7, 8] (r * 4 + j)
          = byteAt ([1, 2, 3, 4] ++ List.replicate 16 9 ++ [5, 6, 7, 8]
              ++ List.replicate 16 9) (r * 20 + j))
    ∧ ∃ Bitmap, decode (FRHITexture2D.mk 1 2) 4 [1, 2, 3, 4, 5, 6, 7, 8] = .ok Bitmap
        ∧ decode (FRHITexture2D.mk 1 2) 20
            ([1, 2, 3, 4] ++ List.replicate 16 9 ++ [5, 6, 7, 8] ++ List.replicate 16 9)
            = .ok Bitmap :=
  ⟨by decide, by decide, by decide,
    decode_stride_independent (FRHITexture2D.mk 1 2) 4 20 [1, 2, 3, 4, 5, 6, 7, 8]
      ([1, 2, 3, 4] ++ List.replicate 16 9 ++ [5, 6, 7, 8] ++ List.replicate 16 9)
      (by decide) (by decide) (by decide) (by decide) (by decide)⟩

/-! ## C4: round trip -/

theorem or_shiftLeft_eq_add (x a i : Nat) (hx : x < 2 ^ i) :
    x ||| (a <<< i) = x + a * 2 ^ i := by
  rw [Nat.shiftLeft_eq, Nat.lor_comm, Nat.mul_comm a, ← Nat.mul_add_lt_is_or hx a]
  omega

theorem encodePixel_eq_add (c : FColor) (hc : c.InRange) :
    encodePixel c = c.R + c.G * 2 ^ 8 + c.B * 2 ^ 16 + c.A * 2 ^ 24 := by
  obtain ⟨hr, hg, hb, _⟩ := hc
  unfold encodePixel
  rw [or_shiftLeft_eq_add c.R c.G 8 (by omega),
    or_shiftLeft_eq_add _ c.B 16 (by omega),
    or_shiftLeft_eq_add _ c.A 24 (by omega)]

theorem unpackPixel_encodePixel_bytes (c : FColor) (hc : c.InRange) :
    unpackPixel (wordByte (encodePixel c) 0 + wordByte (encodePixel c) 1 * 2 ^ 8
      + wordByte (encodePixel c) 2 * 2 ^ 16 + wordByte (encodePixel c) 3 * 2 ^ 24) = c := by
  rw [unpackPixel_eq_div_mod, encodePixel_eq_add c hc]
  obtain ⟨hr, hg, hb, ha⟩ := hc
  simp only [wordByte, Nat.shiftRight_eq_div_pow]
  cases c with
  | mk R G B A =>
    simp only at hr hg hb ha
    simp only [FColor.mk.injEq]
    refine ⟨?_, ?_, ?_, ?_⟩ <;> omega

theorem byteAt_encodeImage (pixels : List FColor) (w h s : Nat) (padding : Nat → Nat)
    (hs : w * 4 ≤ s) (r x : Nat) (hr : r < h) (hx : x < w * 4) :
    byteAt (encodeImage pixels w h s padding) (r * s + x)
      = wordByte (encodePixel (pixels.getD (r * w + x / 4) default)) (x % 4) := by
  have hxs : x < s := by omega
  have hoff : r * s + x < h * s := by
    have h1 : (r + 1) * s ≤ h * s := Nat.mul_le_mul_right s hr
    rw [Nat.succ_mul] at h1
    omega
  have hmod : (r * s + x) % s = x := by
    rw [Nat.add_comm, Nat.add_mul_mod_self_right, Nat.mod_eq_of_lt hxs]
  have hdiv : (r * s + x) / s = r := by
    rw [Nat.add_comm, Nat.add_mul_div_right _ _ (by omega), Nat.div_eq_of_lt hxs,
      Nat.zero_add]
  simp only [byteAt, encodeImage, List.getD_eq_getElem?_getD, List.getElem?_map,
    List.getElem?_range hoff, Option.map_some', Option.getD_some, hmod, hdiv, hx,
    if_true, wordByte, Nat.mod_mod]

theorem word32_encodeImage (pixels : List FColor) (w h s : Nat) (padding : Nat → Nat)
    (hs : w * 4 ≤ s) (r c : Nat) (hr : r < h) (hc : c < w) :
    word32 (encodeImage pixels w h s padding) (r * s + 4 * c)
      = wordByte (encodePixel (pixels.getD (r * w + c) default)) 0
        + wordByte (encodePixel (pixels.getD (r * w + c) default)) 1 * 2 ^ 8
        + wordByte (encodePixel (pixels.getD (r * w + c) default)) 2 * 2 ^ 16
        + wordByte (encodePixel (pixels.getD (r * w + c) default)) 3 * 2 ^ 24 := by
  have b0 := byteAt_encodeImage pixels w h s padding hs r (4 * c) hr (by omega)
  have b1 := byteAt_encodeImage pixels w h s padding hs r (4 * c + 1) hr (by omega)
  have b2 := byteAt_encodeImage pixels w h s padding hs r (4 * c + 2) hr (by omega)
  have b3 := byteAt_encodeImage pixels w h s padding hs r (4 * c + 3) hr (by omega)
  have d0 : 4 * c / 4 = c := by omega
  have d1 : (4 * c + 1) / 4 = c := by omega
  have d2 : (4 * c + 2) / 4 = c := by omega
  have d3 : (4 * c + 3) / 4 = c := by omega
  have m0 : 4 * c % 4 = 0 := by omega
  have m1 : (4 * c + 1) % 4 = 1 := by omega
  have m2 : (4 * c + 2) % 4 = 2 := by omega
  have m3 : (4 * c + 3) % 4 = 3 := by omega
  rw [d0, m0] at b0
  rw [d1, m1, ← Nat.add_assoc] at b1
  rw [d2, m2, ← Nat.add_assoc] at b2
  rw [d3, m3, ← Nat.add_assoc] at b3
  simp only [word32, b0, b1, b2, b3]

/-- C4: for every RGBA image of `width * height` pixels with channels in
[0,255], every `stride >= width * 4` and every content of the padding bytes,
encoding each pixel as the little-endian word `r | g<<8 | b<<16 | a<<24`,
laying the rows out `stride` bytes apart and running the decode of
`SaveCSScreenshot_RenderThread` returns the original pixel sequence. -/
theorem decode_encodeImage (pixels : List FColor) (width height stride : Nat)
    (padding : Nat → Nat)
    (hlen : pixels.length = width * height)
    (hrange : ∀ c, c ∈ pixels → c.InRange)
    (hstride : width * 4 ≤ stride) :
    decode (FRHITexture2D.mk width height) stride
      (encodeImage pixels width height stride padding) = .ok pixels := by
  have hbuf : (((FRHITexture2D.mk width height).SizeY : Int) - 1) * stride
      + (FRHITexture2D.mk width height).SizeX * 4
      ≤ (encodeImage pixels width height stride padding).length := by
    simp only [encodeImage, List.length_map, List.length_range]
    push_cast
    have : (width : Int) * 4 ≤ stride := by exact_mod_cast hstride
    linarith
  rw [decode_eq_imagePixels _ _ _ hbuf]
  congr 1
  apply List.ext_getElem?
  intro n
  by_cases hn : n < width * height
  · have hw : 0 < width := by
      rcases Nat.eq_zero_or_pos width with h0 | h0
      · subst h0; omega
      · exact h0
    have hr : n / width < height := by
      rw [Nat.div_lt_iff_lt_mul hw]
      rw [Nat.mul_comm]
      exact hn
    have hc : n % width < width := Nat.mod_lt _ hw
    have hsplit : n / width * width + n % width = n := by
      rw [Nat.mul_comm]
      exact Nat.div_add_mod n width
    have hget := imagePixels_getElem? (encodeImage pixels width height stride padding)
      width stride height 0 (n / width) (n % width) hr hc
    rw [hsplit, Nat.zero_add,
      word32_encodeImage pixels width height stride padding hstride _ _ hr hc, hsplit] at hget
    have hnl : n < pixels.length := by omega
    rw [hget, List.getD_eq_getElem pixels default hnl, List.getElem?_eq_getElem hnl,
      unpackPixel_encodePixel_bytes _ (hrange _ (List.getElem_mem hnl))]
  · rw [List.getElem?_eq_none (by rw [imagePixels_length]; show width * height ≤ n; omega),
      List.getElem?_eq_none (by omega)]

/-- C4 at a 2x2 image laid out with stride 12, the padding bytes being their
own offset plus 100. -/
theorem decode_encodeImage_witness :
    ([FColor.mk 1 2 3 4, FColor.mk 255 0 255 0, FColor.mk 0 0 0 0,
        FColor.mk 255 255 255 255] : List FColor).length = 2 * 2
    ∧ (∀ c, c ∈ [FColor.mk 1 2 3 4, FColor.mk 255 0 255 0, FColor.mk 0 0 0 0,
        FColor.mk 255 255 255 255] → c.InRange)
    ∧ 2 * 4 ≤ 12
    ∧ decode (FRHITexture2D.mk 2 2) 12
        (encodeImage [FColor.mk 1 2 3 4, FColor.mk 255 0 255 0, FColor.mk 0 0 0 0,
          FColor.mk 255 255 255 255] 2 2 12 (fun off => off + 100))
        = .ok [FColor.mk 1 2 3 4, FColor.mk 255 0 255 0, FColor.mk 0 0 0 0,
          FColor.mk 255 255 255 255] :=
  ⟨by decide, by decide, by decide,
    decode_encodeImage [FColor.mk 1 2 3 4, FColor.mk 255 0 255 0, FColor.mk 0 0 0 0,
      FColor.mk 255 255 255 255] 2 2 12 (fun off => off + 100)
      (by decide) (by decide) (by decide)⟩

/-! ## The two branches of the screenshot functions -/

theorem SaveCS_of_decode_nil (dir : String) (Texture : FRHITexture2D) (LolStride : Nat)
    (TextureData : List Nat) (hdec : decode Texture LolStride TextureData = .ok []) :
    SaveCSScreenshot_RenderThread dir Texture LolStride TextureData
      = .ok [Effect.lockTexture2D, Effect.unlockTexture2D,
          Effect.log Verbosity.Error LogMessage.failedToSaveBMP] := by
  simp only [SaveCSScreenshot_RenderThread, hdec]
  rfl

theorem SaveCS_of_decode_ne_nil (dir : String) (Texture : FRHITexture2D) (LolStride : Nat)
    (TextureData : List Nat) (Bitmap : List FColor)
    (hdec : decode Texture LolStride TextureData = .ok Bitmap)
    (hne : Bitmap ≠ []) (hy : Texture.SizeY ≠ 0) :
    SaveCSScreenshot_RenderThread dir Texture LolStride TextureData
      = .ok [Effect.lockTexture2D, Effect.unlockTexture2D, Effect.makeDirectory dir,
          Effect.createBitmap dir "VisualizeTexture"
            ((Bitmap.length % 2 ^ 32) / Texture.SizeY) Texture.SizeY Bitmap,
          Effect.log Verbosity.Display (LogMessage.contentWasSavedTo dir)] := by
  have hpos : Bitmap.length ≠ 0 := fun h0 => hne (List.length_eq_zero.mp h0)
  simp only [SaveCSScreenshot_RenderThread, hdec, hpos, hy, ne_eq, not_false_eq_true,
    if_true, if_false]

theorem SavePS_of_nil (dir : String) (CurrentTexture : FRHITexture2D) :
    SavePSScreenShot_RenderThread dir true CurrentTexture []
      = .ok [Effect.readSurfaceData 0 0 CurrentTexture.SizeX CurrentTexture.SizeY,
          Effect.log Verbosity.Error LogMessage.failedToSaveBMP] := by
  simp only [SavePSScreenShot_RenderThread]
  rfl

theorem SavePS_of_ne_nil (dir : String) (CurrentTexture : FRHITexture2D)
    (SurfaceData : List FColor) (hne : SurfaceData ≠ [])
    (hy : CurrentTexture.SizeY ≠ 0) :
    SavePSScreenShot_RenderThread dir true CurrentTexture SurfaceData
      = .ok [Effect.readSurfaceData 0 0 CurrentTexture.SizeX CurrentTexture.SizeY,
          Effect.makeDirectory dir,
          Effect.createBitmap dir "VisualizeTexture"
            ((SurfaceData.length % 2 ^ 32) / CurrentTexture.SizeY) CurrentTexture.SizeY
            SurfaceData,
          Effect.log Verbosity.Display (LogMessage.contentWasSavedTo dir)] := by
  have hpos : SurfaceData.length ≠ 0 := fun h0 => hne (List.length_eq_zero.mp h0)
  simp only [SavePSScreenShot_RenderThread, hpos, hy, ne_eq, not_false_eq_true,
    if_true, if_false]
  rfl

theorem decodeRow_length (data : List Nat) :
    ∀ (n p : Nat) (acc Bitmap : List FColor),
      decodeRow data n p acc = .ok Bitmap → Bitmap.length = acc.length + n
  | 0, p, acc, Bitmap, h => by
    simp only [decodeRow, Except.ok.injEq] at h
    simp [h]
  | n + 1, p, acc, Bitmap, h => by
    simp only [decodeRow] at h
    split at h
    · exact absurd h (by simp)
    · have ih := decodeRow_length data n (p + 4) _ Bitmap h
      simp only [List.length_append, List.length_singleton] at ih
      omega

theorem decodeRows_length (data : List Nat) (w s : Nat) :
    ∀ (m p : Nat) (acc Bitmap : List FColor),
      decodeRows data w s m p acc = .ok Bitmap → Bitmap.length = acc.length + w * m
  | 0, p, acc, Bitmap, h => by
    simp only [decodeRows, Except.ok.injEq] at h
    simp [h]
  | m + 1, p, acc, Bitmap, h => by
    simp only [decodeRows] at h
    split at h
    · exact absurd h (by simp)
    · rename_i Bitmap1 hrow
      have h1 := decodeRow_length data w p acc Bitmap1 hrow
      have ih := decodeRows_length data w s m (p + s) Bitmap1 Bitmap h
      rw [ih, h1, Nat.mul_succ]
      omega

/-- Whenever the decode returns, it returns `SizeX * SizeY` pixels. -/
theorem decode_ok_length (Texture : FRHITexture2D) (LolStride : Nat)
    (TextureData : List Nat) (Bitmap : List FColor)
    (h : decode Texture LolStride TextureData = .ok Bitmap) :
    Bitmap.length = Texture.SizeX * Texture.SizeY := by
  have := decodeRows_length TextureData Texture.SizeX LolStride Texture.SizeY 0 [] Bitmap h
  simpa using this

/-! ## C6: screenshot outcome -/

/-- C6: `SaveCSScreenshot_RenderThread` (given a locked region that holds the
rows of the texture) and `SavePSScreenShot_RenderThread` (called on the
rendering thread, with a surface that is non-empty only for a texture of
non-zero height) both return normally; they call the bitmap writer exactly
when the pixel array is non-empty, log the Display message exactly when it is
non-empty, and log the Error message exactly when it is empty. -/
theorem screenshot_outcome (ScreenShotDir : String)
    (Texture : FRHITexture2D) (LolStride : Nat) (TextureData : List Nat)
    (CurrentTexture : FRHITexture2D) (SurfaceData : List FColor)
    (IsInRenderingThread : Bool)
    (hbuf : ((Texture.SizeY : Int) - 1) * LolStride + Texture.SizeX * 4
      ≤ TextureData.length)
    (hthread : IsInRenderingThread = true)
    (hsurface : SurfaceData ≠ [] → CurrentTexture.SizeY ≠ 0) :
    (∃ Bitmap effs, decode Texture LolStride TextureData = .ok Bitmap
      ∧ SaveCSScreenshot_RenderThread ScreenShotDir Texture LolStride TextureData = .ok effs
      ∧ (effs.any isCreateBitmap = true ↔ Bitmap ≠ [])
      ∧ (effs.any (isLog Verbosity.Display) = true ↔ Bitmap ≠ [])
      ∧ (effs.any (isLog Verbosity.Error) = true ↔ Bitmap = []))
    ∧ (∃ effs, SavePSScreenShot_RenderThread ScreenShotDir IsInRenderingThread
          CurrentTexture SurfaceData = .ok effs
      ∧ (effs.any isCreateBitmap = true ↔ SurfaceData ≠ [])
      ∧ (effs.any (isLog Verbosity.Display) = true ↔ SurfaceData ≠ [])
      ∧ (effs.any (isLog Verbosity.Error) = true ↔ SurfaceData = [])) := by
  constructor
  · have hdec := decode_eq_imagePixels Texture LolStride TextureData hbuf
    have hlen := decode_ok_length Texture LolStride TextureData _ hdec
    generalize imagePixels TextureData Texture.SizeX LolStride Texture.SizeY 0 = Bitmap
      at hdec hlen
    by_cases hne : Bitmap = []
    · subst hne
      refine ⟨[], _, hdec, SaveCS_of_decode_nil ScreenShotDir Texture LolStride TextureData hdec,
        ?_⟩
      simp [isCreateBitmap, isLog]
    · have hy : Texture.SizeY ≠ 0 := by
        intro h0
        rw [h0, Nat.mul_zero] at hlen
        exact hne (List.length_eq_zero.mp hlen)
      refine ⟨Bitmap, _, hdec,
        SaveCS_of_decode_ne_nil ScreenShotDir Texture LolStride TextureData Bitmap hdec hne hy,
        ?_⟩
      simp [isCreateBitmap, isLog, hne]
  · subst hthread
    by_cases hne : SurfaceData = []
    · subst hne
      refine ⟨_, SavePS_of_nil ScreenShotDir CurrentTexture, ?_⟩
      simp [isCreateBitmap, isLog]
    · refine ⟨_, SavePS_of_ne_nil ScreenShotDir CurrentTexture SurfaceData hne (hsurface hne),
        ?_⟩
      simp [isCreateBitmap, isLog, hne]

/-- C6 at the 2x1 texture of the example for the compute-shader screenshot and
at an empty surface of a 4x4 texture for the pixel-shader screenshot. -/
theorem screenshot_outcome_witness :
    (∃ Bitmap effs,
      decode (FRHITexture2D.mk 2 1) 8 [0xFF, 0, 0, 0, 0xFF, 0xFF, 0xFF, 0xFF] = .ok Bitmap
      ∧ SaveCSScreenshot_RenderThread "Saved/Screenshots" (FRHITexture2D.mk 2 1) 8
          [0xFF, 0, 0, 0, 0xFF, 0xFF, 0xFF, 0xFF] = .ok effs
      ∧ (effs.any isCreateBitmap = true ↔ Bitmap ≠ [])
      ∧ (effs.any (isLog Verbosity.Display) = true ↔ Bitmap ≠ [])
      ∧ (effs.any (isLog Verbosity.Error) = true ↔ Bitmap = []))
    ∧ (∃ effs, SavePSScreenShot_RenderThread "Saved/Screenshots" true
          (FRHITexture2D.mk 4 4) [] = .ok effs
      ∧ (effs.any isCreateBitmap = true ↔ ([] : List FColor) ≠ [])
      ∧ (effs.any (isLog Verbosity.Display) = true ↔ ([] : List FColor) ≠ [])
      ∧ (effs.any (isLog Verbosity.Error) = true ↔ ([] : List FColor) = [])) :=
  screenshot_outcome "Saved/Screenshots" (FRHITexture2D.mk 2 1) 8
    [0xFF, 0, 0, 0, 0xFF, 0xFF, 0xFF, 0xFF] (FRHITexture2D.mk 4 4) [] true
    (by decide) rfl (fun h => absurd rfl h)

/-! ## C7: a texture of height zero -/

/-- C7, as stated, fails: for a texture of height 0 (here width 1, stride 4 and
an empty locked region) `SaveCSScreenshot_RenderThread` does report an error,
the Error-verbosity log of line 188. -/
theorem height_zero_reports_error :
    ∃ effs, SaveCSScreenshot_RenderThread "Saved/Screenshots" (FRHITexture2D.mk 1 0) 4 []
        = .ok effs
      ∧ Effect.log Verbosity.Error LogMessage.failedToSaveBMP ∈ effs
      ∧ effs.any (isLog Verbosity.Error) = true :=
  ⟨[Effect.lockTexture2D, Effect.unlockTexture2D,
      Effect.log Verbosity.Error LogMessage.failedToSaveBMP], rfl, by decide, by decide⟩

/-- C7, amended: for height 0, whatever the width, the stride and the locked
region (even an empty one, so no byte is read), the decode loop returns the
empty `Bitmap` without a fault; `SaveCSScreenshot_RenderThread` then returns
normally, does not call the bitmap writer, and logs the Error message
`failedToSaveBMP`. -/
theorem height_zero_empty_image (ScreenShotDir : String) (SizeX LolStride : Nat)
    (TextureData : List Nat) :
    decode (FRHITexture2D.mk SizeX 0) LolStride TextureData = .ok []
    ∧ decode (FRHITexture2D.mk SizeX 0) LolStride [] = .ok []
    ∧ SaveCSScreenshot_RenderThread ScreenShotDir (FRHITexture2D.mk SizeX 0) LolStride
        TextureData
        = .ok [Effect.lockTexture2D, Effect.unlockTexture2D,
            Effect.log Verbosity.Error LogMessage.failedToSaveBMP] :=
  ⟨rfl, rfl, SaveCS_of_decode_nil ScreenShotDir (FRHITexture2D.mk SizeX 0) LolStride
    TextureData rfl⟩

/-! ## C8: the dimensions handed to the bitmap writer -/

/-- C8: whenever `SaveCSScreenshot_RenderThread` calls the bitmap writer, for a
texture with `width * height < 2 ^ 31`, the divisor `GetSizeY()` is non-zero,
the width argument `Bitmap.Num() / GetSizeY()` equals `GetSizeX()`, the height
argument equals `GetSizeY()`, and the pixel array passed is the decoded
`Bitmap`, of exactly `width * height` entries. -/
theorem createBitmap_dimensions (ScreenShotDir : String) (Texture : FRHITexture2D)
    (LolStride : Nat) (TextureData : List Nat) (effs : List Effect)
    (dir file : String) (DataWidth DataHeight : Nat) (Data : List FColor)
    (hret : SaveCSScreenshot_RenderThread ScreenShotDir Texture LolStride TextureData
      = .ok effs)
    (hcall : Effect.createBitmap dir file DataWidth DataHeight Data ∈ effs)
    (hsmall : Texture.SizeX * Texture.SizeY < 2 ^ 31) :
    Texture.SizeY ≠ 0
      ∧ DataWidth = Texture.SizeX
      ∧ DataHeight = Texture.SizeY
      ∧ Data.length = Texture.SizeX * Texture.SizeY
      ∧ Data ≠ []
      ∧ decode Texture LolStride TextureData = .ok Data := by
  cases hdec : decode Texture LolStride TextureData with
  | error e =>
    simp [SaveCSScreenshot_RenderThread, hdec] at hret
  | ok Bitmap =>
    have hlen := decode_ok_length Texture LolStride TextureData Bitmap hdec
    by_cases hne : Bitmap = []
    · subst hne
      rw [SaveCS_of_decode_nil ScreenShotDir Texture LolStride TextureData hdec] at hret
      simp only [Except.ok.injEq] at hret
      subst hret
      simp at hcall
    · have hy : Texture.SizeY ≠ 0 := by
        intro h0
        rw [h0, Nat.mul_zero] at hlen
        exact hne (List.length_eq_zero.mp hlen)
      rw [SaveCS_of_decode_ne_nil ScreenShotDir Texture LolStride TextureData Bitmap hdec
        hne hy] at hret
      simp only [Except.ok.injEq] at hret
      subst hret
      simp only [List.mem_cons, List.mem_singleton, Effect.createBitmap.injEq,
        List.not_mem_nil, or_false, false_or, reduceCtorEq] at hcall
      obtain ⟨_, _, hw, hh, hd⟩ := hcall
      subst hd
      refine ⟨hy, ?_, hh, hlen, hne, rfl⟩
      rw [hw, hlen, Nat.mod_eq_of_lt (by omega),
        Nat.mul_div_cancel _ (Nat.pos_of_ne_zero hy)]

/-- C8 at the 2x1 texture of the example. -/
theorem createBitmap_dimensions_witness :
    (FRHITexture2D.mk 2 1).SizeY ≠ 0
      ∧ 2 = (FRHITexture2D.mk 2 1).SizeX
      ∧ 1 = (FRHITexture2D.mk 2 1).SizeY
      ∧ [FColor.mk 255 0 0 0, FColor.mk 255 255 255 255].length
          = (FRHITexture2D.mk 2 1).SizeX * (FRHITexture2D.mk 2 1).SizeY
      ∧ [FColor.mk 255 0 0 0, FColor.mk 255 255 255 255] ≠ []
      ∧ decode (FRHITexture2D.mk 2 1) 8 [0xFF, 0, 0, 0, 0xFF, 0xFF, 0xFF, 0xFF]
          = .ok [FColor.mk 255 0 0 0, FColor.mk 255 255 255 255] :=
  createBitmap_dimensions "Saved/Screenshots" (FRHITexture2D.mk 2 1) 8
    [0xFF, 0, 0, 0, 0xFF, 0xFF, 0xFF, 0xFF]
    [Effect.lockTexture2D, Effect.unlockTexture2D,
      Effect.makeDirectory "Saved/Screenshots",
      Effect.createBitmap "Saved/Screenshots" "VisualizeTexture" 2 1
        [FColor.mk 255 0 0 0, FColor.mk 255 255 255 255],
      Effect.log Verbosity.Display (LogMessage.contentWasSavedTo "Saved/Screenshots")]
    "Saved/Screenshots" "VisualizeTexture" 2 1
    [FColor.mk 255 0 0 0, FColor.mk 255 255 255 255]
    rfl (by decide) (by decide)

/-! ## C9: the module state machine -/

theorem step_draw {P : Type} (w : World P) (c : Call P) (Copy : P)
    (h : (step w c).2 = Observed.Draw_RenderThread Copy) :
    c = Call.DrawEveryFrame_RenderThread
      ∧ w.Module.bCachedParametersValid = true
      ∧ w.Module.CachedShaderUsageExampleParameters = Copy := by
  cases c with
  | StartupModule => simp [step, StartupModule] at h
  | ShutdownModule r =>
    cases hh : w.Module.OnPostResolvedSceneColorHandle <;> cases r <;>
      simp [step, ShutdownModule, EndRendering, hh] at h
  | BeginRendering r =>
    cases hh : w.Module.OnPostResolvedSceneColorHandle <;> cases r <;>
      simp [step, BeginRendering, hh] at h
  | EndRendering r =>
    cases hh : w.Module.OnPostResolvedSceneColorHandle <;> cases r <;>
      simp [step, EndRendering, hh] at h
  | UpdateParameters p => simp [step, UpdateParameters] at h
  | DrawEveryFrame_RenderThread =>
    cases hv : w.Module.bCachedParametersValid <;>
      simp [step, DrawEveryFrame_RenderThread, hv] at h
    exact ⟨rfl, rfl, h⟩

theorem step_keeps_valid {P : Type} (w : World P) (c : Call P)
    (h : (step w c).1.Module.bCachedParametersValid = true) :
    c = Call.UpdateParameters (step w c).1.Module.CachedShaderUsageExampleParameters
      ∨ (Quiet (c, (step w c).2) = true
          ∧ w.Module.bCachedParametersValid = true
          ∧ w.Module.CachedShaderUsageExampleParameters
              = (step w c).1.Module.CachedShaderUsageExampleParameters) := by
  cases c with
  | StartupModule => simp [step, StartupModule] at h
  | ShutdownModule r =>
    right
    cases hh : w.Module.OnPostResolvedSceneColorHandle <;> cases r <;>
      simp [step, ShutdownModule, EndRendering, hh, Quiet, isUpdate, isAddRaw] at h ⊢ <;>
      exact h
  | BeginRendering r =>
    right
    cases hh : w.Module.OnPostResolvedSceneColorHandle <;> cases r <;>
      simp [step, BeginRendering, hh, Quiet, isUpdate, isAddRaw] at h ⊢ <;>
      exact h
  | EndRendering r =>
    right
    cases hh : w.Module.OnPostResolvedSceneColorHandle <;> cases r <;>
      simp [step, EndRendering, hh, Quiet, isUpdate, isAddRaw] at h ⊢ <;>
      exact h
  | UpdateParameters p =>
    left
    simp [step, UpdateParameters]
  | DrawEveryFrame_RenderThread =>
    right
    cases hv : w.Module.bCachedParametersValid <;>
      simp [step, DrawEveryFrame_RenderThread, hv, Quiet, isUpdate, isAddRaw] at h ⊢

theorem step_callbacks {P : Type} (w : World P) (c : Call P)
    (h : (step w c).1.Callbacks ≠ []) :
    w.Callbacks ≠ [] ∨ isAddRaw (step w c).2 = true := by
  cases c with
  | StartupModule => left; simpa [step, StartupModule] using h
  | ShutdownModule r =>
    cases hh : w.Module.OnPostResolvedSceneColorHandle <;> cases r <;>
      simp [step, ShutdownModule, EndRendering, hh, isAddRaw] at h ⊢ <;>
      first
        | exact h
        | (intro h0; rw [h0] at h; simp at h)
  | BeginRendering r =>
    cases hh : w.Module.OnPostResolvedSceneColorHandle <;> cases r <;>
      simp [step, BeginRendering, hh, isAddRaw] at h ⊢ <;>
      exact h
  | EndRendering r =>
    cases hh : w.Module.OnPostResolvedSceneColorHandle <;> cases r <;>
      simp [step, EndRendering, hh, isAddRaw] at h ⊢ <;>
      first
        | exact h
        | (intro h0; rw [h0] at h; simp at h)
  | UpdateParameters p => left; simpa [step, UpdateParameters] using h
  | DrawEveryFrame_RenderThread =>
    left
    cases hv : w.Module.bCachedParametersValid <;>
      simpa [step, DrawEveryFrame_RenderThread, hv] using h

theorem trace_entry {P : Type} :
    ∀ (calls : List (Call P)) (w : World P) (pre post : List (Call P × Observed P))
      (c : Call P) (o : Observed P),
      trace w calls = pre ++ (c, o) :: post → ∃ w1 : World P, o = (step w1 c).2
  | [], w, pre, post, c, o, h => by
    simp [trace] at h
  | c0 :: cs, w, [], post, c, o, h => by
    simp only [trace, List.nil_append, List.cons.injEq, Prod.mk.injEq] at h
    obtain ⟨⟨hc, ho⟩, _⟩ := h
    subst hc
    exact ⟨w, ho.symm⟩
  | c0 :: cs, w, x :: pre, post, c, o, h => by
    simp only [trace, List.cons_append, List.cons.injEq] at h
    exact trace_entry cs _ pre post c o h.2

theorem trace_draw_general {P : Type} :
    ∀ (calls : List (Call P)) (w : World P) (pre post : List (Call P × Observed P))
      (c : Call P) (Copy : P),
      trace w calls = pre ++ (c, Observed.Draw_RenderThread Copy) :: post →
      (∃ before u after, pre = before ++ (Call.UpdateParameters Copy, u) :: after
          ∧ ∀ x, x ∈ after → Quiet x = true)
        ∨ (w.Module.bCachedParametersValid = true
            ∧ w.Module.CachedShaderUsageExampleParameters = Copy
            ∧ ∀ x, x ∈ pre → Quiet x = true)
  | [], w, pre, post, c, Copy, h => by
    simp [trace] at h
  | c0 :: cs, w, [], post, c, Copy, h => by
    simp only [trace, List.nil_append, List.cons.injEq, Prod.mk.injEq] at h
    obtain ⟨⟨_, ho⟩, _⟩ := h
    obtain ⟨_, hv, hcopy⟩ := step_draw w c0 Copy ho
    exact Or.inr ⟨hv, hcopy, fun x hx => absurd hx (List.not_mem_nil x)⟩
  | c0 :: cs, w, x :: pre, post, c, Copy, h => by
    simp only [trace, List.cons_append, List.cons.injEq] at h
    obtain ⟨hx, htail⟩ := h
    rcases trace_draw_general cs _ pre post c Copy htail with
      ⟨before, u, after, hpre, hquiet⟩ | ⟨hv, hcopy, hquiet⟩
    · exact Or.inl ⟨x :: before, u, after, by rw [hpre]; rfl, hquiet⟩
    · rcases step_keeps_valid w c0 hv with hupd | ⟨hq, hv0, hcopy0⟩
      · refine Or.inl ⟨[], (step w c0).2, pre, ?_, hquiet⟩
        have hc0 : c0 = Call.UpdateParameters Copy := by
          rw [hcopy] at hupd
          exact hupd
        rw [← hx, List.nil_append, ← hc0]
      · refine Or.inr ⟨hv0, hcopy0.trans hcopy, ?_⟩
        intro y hy
        rcases List.mem_cons.mp hy with hyx | hyp
        · rw [hyx, ← hx]; exact hq
        · exact hquiet y hyp

theorem trace_draw_registered {P : Type} :
    ∀ (calls : List (Call P)) (w : World P) (pre post : List (Call P × Observed P))
      (o : Observed P),
      Feasible w calls = true →
      trace w calls = pre ++ (Call.DrawEveryFrame_RenderThread, o) :: post →
      w.Callbacks ≠ [] ∨ ∃ x, x ∈ pre ∧ isAddRaw x.2 = true
  | [], w, pre, post, o, _, h => by
    simp [trace] at h
  | c0 :: cs, w, [], post, o, hf, h => by
    simp only [trace, List.nil_append, List.cons.injEq, Prod.mk.injEq] at h
    obtain ⟨⟨hc, _⟩, _⟩ := h
    subst hc
    simp only [Feasible, Enabled, Bool.and_eq_true, Bool.not_eq_true',
      List.isEmpty_eq_false] at hf
    left
    intro h0
    rw [h0] at hf
    simp at hf
  | c0 :: cs, w, x :: pre, post, o, hf, h => by
    simp only [trace, List.cons_append, List.cons.injEq] at h
    obtain ⟨hx, htail⟩ := h
    simp only [Feasible, Bool.and_eq_true] at hf
    rcases trace_draw_registered cs _ pre post o hf.2 htail with hcb | ⟨y, hy, hadd⟩
    · rcases step_callbacks w c0 hcb with h0 | hadd
      · exact Or.inl h0
      · exact Or.inr ⟨x, List.mem_cons_self _ _, by rw [← hx]; exact hadd⟩
    · exact Or.inr ⟨y, List.mem_cons_of_mem _ hy, hadd⟩

theorem step_addRaw {P : Type} (w : World P) (c : Call P)
    (h : isAddRaw (step w c).2 = true) : ∃ r, c = Call.BeginRendering r := by
  cases c with
  | StartupModule => simp [step, StartupModule, isAddRaw] at h
  | ShutdownModule r =>
    cases hh : w.Module.OnPostResolvedSceneColorHandle <;> cases r <;>
      simp [step, ShutdownModule, EndRendering, hh, isAddRaw] at h
  | BeginRendering r => exact ⟨r, rfl⟩
  | EndRendering r =>
    cases hh : w.Module.OnPostResolvedSceneColorHandle <;> cases r <;>
      simp [step, EndRendering, hh, isAddRaw] at h
  | UpdateParameters p => simp [step, UpdateParameters, isAddRaw] at h
  | DrawEveryFrame_RenderThread =>
    cases hv : w.Module.bCachedParametersValid <;>
      simp [step, DrawEveryFrame_RenderThread, hv, isAddRaw] at h

theorem step_drawEveryFrame {P : Type} (w : World P) :
    (step w Call.DrawEveryFrame_RenderThread).2 = Observed.nothing
      ∨ ∃ Copy, (step w Call.DrawEveryFrame_RenderThread).2
          = Observed.Draw_RenderThread Copy := by
  cases hv : w.Module.bCachedParametersValid <;>
    simp [step, DrawEveryFrame_RenderThread, hv]

/-- C9: over every sequence of calls that starts with `StartupModule` on a
module that has bound nothing yet, the callback firing only while bound, a
call of `DrawEveryFrame_RenderThread` either returns without drawing or
invokes `Draw_RenderThread` with a copy equal to the argument of an earlier
`UpdateParameters` call such that no later `UpdateParameters` call and no
binding of the callback lies between the two, while a `BeginRendering` call
that bound the callback lies before that `UpdateParameters` call. -/
theorem draw_requires_update {P : Type} (w0 : World P) (calls : List (Call P))
    (pre post : List (Call P × Observed P)) (o : Observed P)
    (hfresh : w0.Callbacks = [])
    (hfeas : Feasible w0 (Call.StartupModule :: calls) = true)
    (htrace : trace w0 (Call.StartupModule :: calls)
      = pre ++ (Call.DrawEveryFrame_RenderThread, o) :: post) :
    o = Observed.nothing
      ∨ ∃ Copy before u after,
          o = Observed.Draw_RenderThread Copy
          ∧ pre = before ++ (Call.UpdateParameters Copy, u) :: after
          ∧ (∀ x, x ∈ after → Quiet x = true)
          ∧ (∃ x, x ∈ before ∧ isAddRaw x.2 = true ∧ ∃ r, x.1 = Call.BeginRendering r) := by
  obtain ⟨w1, ho⟩ := trace_entry _ w0 pre post _ o htrace
  rcases step_drawEveryFrame w1 with hnone | ⟨Copy, hdraw⟩
  · exact Or.inl (ho.trans hnone)
  · right
    have hoc : o = Observed.Draw_RenderThread Copy := ho.trans hdraw
    subst hoc
    cases pre with
    | nil => simp [trace] at htrace
    | cons x pre1 =>
      simp only [trace, List.cons_append, List.cons.injEq] at htrace
      obtain ⟨hx, htail⟩ := htrace
      simp only [Feasible, Bool.and_eq_true] at hfeas
      have hgen := trace_draw_general calls _ pre1 post _ Copy htail
      have hreg := trace_draw_registered calls _ pre1 post _ hfeas.2 htail
      rcases hgen with ⟨before, u, after, hpre, hquiet⟩ | ⟨hv, _, _⟩
      · rcases hreg with hcb | ⟨y, hy, hadd⟩
        · exact absurd (by simpa [step, StartupModule] using hfresh) hcb
        · rw [hpre] at hy htail
          have hybefore : y ∈ before := by
            rcases List.mem_append.mp hy with hb | hrest
            · exact hb
            · rcases List.mem_cons.mp hrest with hyu | hya
              · obtain ⟨w2, hu⟩ := trace_entry calls _ before
                  (after ++ (Call.DrawEveryFrame_RenderThread,
                    Observed.Draw_RenderThread Copy) :: post)
                  (Call.UpdateParameters Copy) u (by rw [htail]; simp)
                rw [hyu, hu] at hadd
                simp [step, UpdateParameters, isAddRaw] at hadd
              · have hq := hquiet y hya
                simp only [Quiet, Bool.and_eq_true, Bool.not_eq_true'] at hq
                rw [hq.2] at hadd
                exact absurd hadd (by simp)
          obtain ⟨bpre, bpost, hsplit⟩ := List.append_of_mem hybefore
          obtain ⟨w3, hy3⟩ := trace_entry calls _ bpre
            (bpost ++ (Call.UpdateParameters Copy, u) :: (after
              ++ (Call.DrawEveryFrame_RenderThread, Observed.Draw_RenderThread Copy) :: post))
            y.1 y.2 (by rw [htail, hsplit]; simp)
          have hbegin := step_addRaw w3 y.1 (by rw [← hy3]; exact hadd)
          exact ⟨Copy, x :: before, u, after, rfl, by rw [hpre]; rfl, hquiet,
            y, List.mem_cons_of_mem _ hybefore, hadd, hbegin⟩
      · simp [step, StartupModule] at hv

/-- C9 on the sequence `StartupModule`, `UpdateParameters 7`, `BeginRendering`,
`DrawEveryFrame_RenderThread`, `UpdateParameters 5`,
`DrawEveryFrame_RenderThread`: the first frame draws nothing, the second
draws with 5. -/
theorem draw_requires_update_witness :
    trace (World.mk (FShaderPluginModule.mk none true 0) [] 0)
        [Call.StartupModule, Call.UpdateParameters 7, Call.BeginRendering true,
          Call.DrawEveryFrame_RenderThread, Call.UpdateParameters 5,
          Call.DrawEveryFrame_RenderThread]
      = [(Call.StartupModule, Observed.nothing),
          (Call.UpdateParameters 7, Observed.nothing),
          (Call.BeginRendering true, Observed.addRaw 0),
          (Call.DrawEveryFrame_RenderThread, Observed.nothing),
          (Call.UpdateParameters 5, Observed.nothing)]
        ++ (Call.DrawEveryFrame_RenderThread, Observed.Draw_RenderThread 5) :: []
    ∧ ((Observed.Draw_RenderThread 5 : Observed Nat) = Observed.nothing
      ∨ ∃ Copy before u after,
          (Observed.Draw_RenderThread 5 : Observed Nat) = Observed.Draw_RenderThread Copy
          ∧ [(Call.StartupModule, Observed.nothing),
              (Call.UpdateParameters 7, Observed.nothing),
              (Call.BeginRendering true, Observed.addRaw 0),
              (Call.DrawEveryFrame_RenderThread, Observed.nothing),
              (Call.UpdateParameters 5, Observed.nothing)]
              = before ++ (Call.UpdateParameters Copy, u) :: after
          ∧ (∀ x, x ∈ after → Quiet x = true)
          ∧ (∃ x, x ∈ before ∧ isAddRaw x.2 = true ∧ ∃ r, x.1 = Call.BeginRendering r)) :=
  ⟨rfl,
    draw_requires_update (World.mk (FShaderPluginModule.mk none true 0) [] 0)
      [Call.UpdateParameters 7, Call.BeginRendering true,
        Call.DrawEveryFrame_RenderThread, Call.UpdateParameters 5,
        Call.DrawEveryFrame_RenderThread]
      [(Call.StartupModule, Observed.nothing),
        (Call.UpdateParameters 7, Observed.nothing),
        (Call.BeginRendering true, Observed.addRaw 0),
        (Call.DrawEveryFrame_RenderThread, Observed.nothing),
        (Call.UpdateParameters 5, Observed.nothing)]
      [] (Observed.Draw_RenderThread 5) rfl rfl rfl⟩

/-! ## C10: the compute dispatch covers the texture -/

theorem toUInt32_DivideAndRoundUp (X : Int) (h0 : 0 < X) (h1 : X ≤ 2 ^ 31 - 32) :
    (toUInt32 (DivideAndRoundUp X NUM_THREADS_PER_GROUP_DIMENSION) : Int) = (X + 31) / 32 := by
  have hwrap : wrapInt32 (X + 32 - 1) = X + 31 := by
    unfold wrapInt32
    omega
  have hdiv : Int.tdiv (X + 31) 32 = (X + 31) / 32 :=
    Int.tdiv_eq_ediv (by omega) (by decide)
  simp only [DivideAndRoundUp, NUM_THREADS_PER_GROUP_DIMENSION, hwrap, hdiv, toUInt32]
  omega

/-- C10: for every render-target extent `(X, Y)` with `0 < X, Y <= 2^31 - 32`
the thread-group counts handed to `DispatchComputeShader` are
`gx = (X + 31) / 32` and `gy = (Y + 31) / 32` and satisfy
`32 * gx >= X > 32 * (gx - 1)` and `32 * gy >= Y > 32 * (gy - 1)`, so the 32x32
thread grid reaches every texel and no group lies wholly outside the
texture; the Z group count is 1. -/
theorem dispatch_covers_texture (X Y : Int)
    (hX0 : 0 < X) (hX1 : X ≤ 2 ^ 31 - 32) (hY0 : 0 < Y) (hY1 : Y ≤ 2 ^ 31 - 32) :
    ((RunComputeShader_RenderThread X Y).1 : Int) = (X + 31) / 32
      ∧ ((RunComputeShader_RenderThread X Y).2.1 : Int) = (Y + 31) / 32
      ∧ 32 * ((RunComputeShader_RenderThread X Y).1 : Int) ≥ X
      ∧ X > 32 * (((RunComputeShader_RenderThread X Y).1 : Int) - 1)
      ∧ 32 * ((RunComputeShader_RenderThread X Y).2.1 : Int) ≥ Y
      ∧ Y > 32 * (((RunComputeShader_RenderThread X Y).2.1 : Int) - 1)
      ∧ (RunComputeShader_RenderThread X Y).2.2 = 1 := by
  have hx : ((RunComputeShader_RenderThread X Y).1 : Int) = (X + 31) / 32 :=
    toUInt32_DivideAndRoundUp X hX0 hX1
  have hy : ((RunComputeShader_RenderThread X Y).2.1 : Int) = (Y + 31) / 32 :=
    toUInt32_DivideAndRoundUp Y hY0 hY1
  rw [hx, hy]
  refine ⟨rfl, rfl, ?_, ?_, ?_, ?_, rfl⟩ <;> omega

/-- C10 at the extents 1 and `2^31 - 32`, the two ends of the range. -/
theorem dispatch_covers_texture_witness :
    RunComputeShader_RenderThread 1 (2 ^ 31 - 32) = (1, 67108863, 1)
    ∧ ((RunComputeShader_RenderThread 1 (2 ^ 31 - 32)).1 : Int) = (1 + 31) / 32
    ∧ ((RunComputeShader_RenderThread 1 (2 ^ 31 - 32)).2.1 : Int) = (2 ^ 31 - 32 + 31) / 32
    ∧ 32 * ((RunComputeShader_RenderThread 1 (2 ^ 31 - 32)).1 : Int) ≥ 1
    ∧ (1 : Int) > 32 * (((RunComputeShader_RenderThread 1 (2 ^ 31 - 32)).1 : Int) - 1)
    ∧ 32 * ((RunComputeShader_RenderThread 1 (2 ^ 31 - 32)).2.1 : Int) ≥ 2 ^ 31 - 32
    ∧ (2 ^ 31 - 32 : Int) > 32 * (((RunComputeShader_RenderThread 1 (2 ^ 31 - 32)).2.1 : Int) - 1)
    ∧ (RunComputeShader_RenderThread 1 (2 ^ 31 - 32)).2.2 = 1 :=
  ⟨by decide, dispatch_covers_texture 1 (2 ^ 31 - 32) (by decide) (by decide) (by decide)
    (by decide)⟩

end ShaderPlugin
